import Mathlib

set_option linter.unusedSectionVars false

/-
  Verification of the NFA simulation / epsilon-closure / subset-construction
  engine (NFA.py) against its natural-language specification.

  The embedding models the Python class NFA as a record of its fields.  Python
  reference semantics matter in exactly one place: `__init__` and `reset` bind
  `self.current_state = self.start` (the same set object), and
  `_perform_eps_closure` mutates that object in place with `update`, so the
  `start` field is mutated whenever `current_state` aliases it.  We track this
  with the flag `curIsStart`; every other assignment to `current_state` binds a
  freshly built set, for which value semantics coincide with reference
  semantics.
-/

namespace PyAutomata

variable {Q S : Type} [DecidableEq Q] [DecidableEq S]

/-- Result of one call of the transition function `delta`: Python returns
`None`, a single state, or an iterable of states. -/
inductive DeltaRes (Q : Type) : Type
  | none : DeltaRes Q
  | single : Q → DeltaRes Q
  | many : Finset Q → DeltaRes Q

/-- The set of states contributed by `delta(q, c)`: in `input`, `None`
contributes nothing, a single state is added with `add`, an iterable with
`update`. -/
def deltaSet (d : Q → S → DeltaRes Q) (q : Q) (c : S) : Finset Q :=
  match d q c with
  | DeltaRes.none => ∅
  | DeltaRes.single x => {x}
  | DeltaRes.many t => t

/-- The union loop of `input`: for each state of the current set, evaluate
`delta` and flatten the results into one set. -/
def move (d : Q → S → DeltaRes Q) (A : Finset Q) (c : S) : Finset Q :=
  A.biUnion fun q => deltaSet d q c

/-- One round of epsilon expansion, as performed by `_perform_eps_closure`:
`current_state.update(input(EPSILON))`, i.e. `A ∪ epsStep(A)`.  Note this is a
single round, not an iteration to a fixed point. -/
def close1 (d : Q → S → DeltaRes Q) (eps : S) (A : Finset Q) : Finset Q :=
  A ∪ move d A eps

/-- The fields of a Python `NFA` object.  `alphabetL` is kept as a list because
`validate` and `build_DFA_from_NFA` iterate the alphabet; Python set iteration
order is unspecified, so we fix insertion order (constructor alphabet first,
the epsilon symbol appended if absent).  `curIsStart` records whether
`current_state` is the very same set object as `start` (true right after
`__init__` and after `reset`, false after any `step`). -/
structure NFA (Q S : Type) : Type where
  states : Finset Q
  alphabetL : List S
  delta : Q → S → DeltaRes Q
  startVal : Finset Q
  accepts : Finset Q
  EPSILON : S
  curVal : Finset Q
  curIsStart : Bool

/-- `_perform_eps_closure`: `self.current_state.update(self.input(self.EPSILON))`.
The epsilon symbol is inserted into the alphabet by the constructor and never
removed, so the in-alphabet guard inside `input` passes and the update is
`curVal ∪ move(curVal, EPSILON)`.  The update is in place, so when
`current_state` aliases `start` the `start` field is mutated as well. -/
def NFA.perform_eps_closure (s : NFA Q S) : NFA Q S :=
  let newCur := close1 s.delta s.EPSILON s.curVal
  { s with
    curVal := newCur
    startVal := if s.curIsStart then newCur else s.startVal }

/-- `__init__`: normalize `start` to a set, add the epsilon symbol to the
alphabet, bind `current_state` to the `start` object itself, then perform one
epsilon round (which, through the aliasing, also rewrites `start`). -/
def NFA.make (states : Finset Q) (alphabet : List S) (delta : Q → S → DeltaRes Q)
    (start : Q ⊕ Finset Q) (accepts : Finset Q) (eps : S) : NFA Q S :=
  let start0 : Finset Q :=
    match start with
    | Sum.inl q => {q}
    | Sum.inr t => t
  NFA.perform_eps_closure
    { states := states
      alphabetL := alphabet.dedup ++ if eps ∈ alphabet then [] else [eps]
      delta := delta
      startVal := start0
      accepts := accepts
      EPSILON := eps
      curVal := start0
      curIsStart := true }

/-- `input`: returns `None` when the symbol is outside the alphabet, otherwise
the flattened union of `delta(q, char)` over the current states. -/
def NFA.input (s : NFA Q S) (c : S) : Option (Finset Q) :=
  if c ∈ s.alphabetL then some (move s.delta s.curVal c) else none

/-- `step`: early `return None` (state untouched) when the symbol is outside
the alphabet; otherwise rebind `current_state` to the fresh set built by
`input` and perform the epsilon round. -/
def NFA.step (s : NFA Q S) (c : S) : NFA Q S :=
  if c ∈ s.alphabetL then
    NFA.perform_eps_closure { s with curVal := move s.delta s.curVal c, curIsStart := false }
  else s

/-- `input_sequence`: step on every symbol of the iterable, in order. -/
def NFA.input_sequence (s : NFA Q S) (w : List S) : NFA Q S :=
  w.foldl NFA.step s

/-- `status`: whether some current state is accepting. -/
def NFA.status (s : NFA Q S) : Bool :=
  decide ((s.curVal ∩ s.accepts).Nonempty)

/-- `reset`: rebind `current_state` to the `start` object and perform the
epsilon round (which mutates `start` in place through the aliasing). -/
def NFA.reset (s : NFA Q S) : NFA Q S :=
  NFA.perform_eps_closure { s with curVal := s.startVal, curIsStart := true }

/-- `recognizes`: save the `current_state` reference, reset, run the sequence,
read `status`, then rebind `current_state` to the saved object.  If the saved
object was the `start` object, the reset's in-place epsilon round has mutated
it, so the restored value is the current `start` value, not the saved value. -/
def NFA.recognizes (s : NFA Q S) (w : List S) : Bool × NFA Q S :=
  let savedVal := s.curVal
  let savedIsStart := s.curIsStart
  let s1 := (s.reset).input_sequence w
  let valid := s1.status
  (valid,
    { s1 with
      curVal := if savedIsStart then s1.startVal else savedVal
      curIsStart := savedIsStart })

/-- A failed bare `assert` raises `AssertionError`; it carries no message — in
particular no offending state/symbol pair. -/
inductive PyErr : Type
  | assertionErr : PyErr
deriving DecidableEq

/-- The Python membership test `x in states` where `x` is a `set` of states:
CPython's `set.__contains__` converts an unhashable `set` key to a temporary
`frozenset` instead of raising, so the test holds iff some member of `states`
is itself a frozenset with exactly the elements of `x`.  `asSet` records which
values of the state type denote frozensets of states (`Option.none` for
atoms such as numbers and strings). -/
def pySetMem (asSet : Q → Option (Finset Q)) (x : Finset Q) (states : Finset Q) : Bool :=
  decide (∃ q ∈ states, asSet q = some x)

/-- The per-pair check of `validate`'s loop: an iterable result must satisfy
`a <= self.states`, a single state `a in self.states`, and a `None` result
fails `assert a in self.states` because `None` is never a state ("None is not
a valid state", `__init__` docstring). -/
def deltaResOk (s : NFA Q S) (q : Q) (c : S) : Bool :=
  match s.delta q c with
  | DeltaRes.none => false
  | DeltaRes.single x => decide (x ∈ s.states)
  | DeltaRes.many t => decide (t ⊆ s.states)

/-- `validate`: `assert set(accepts).issubset(set(states))`, then
`assert self.start in self.states` and `assert self.current_state in
self.states` — `start` and `current_state` are `set`s, so these are the
frozenset-converted membership tests of `pySetMem` — then the loop asserting
that every `delta(state, char)` is a member or subset of `states`.  Every
failure is a bare `AssertionError`. -/
def NFA.validate (s : NFA Q S) (asSet : Q → Option (Finset Q)) : Except PyErr Unit :=
  if s.accepts ⊆ s.states then
    if pySetMem asSet s.startVal s.states then
      if pySetMem asSet s.curVal s.states then
        if ∀ q ∈ s.states, ∀ c ∈ s.alphabetL, deltaResOk s q c = true then Except.ok ()
        else Except.error PyErr.assertionErr
      else Except.error PyErr.assertionErr
    else Except.error PyErr.assertionErr
  else Except.error PyErr.assertionErr

/-- The default value of the `epsilon` parameter of `__init__`. -/
def defaultEpsilon : String := "epi"

/-- `copy`: `NFA(self.states, self.alphabet, self.delta, self.start,
self.accepts)` — the `epsilon` argument is not forwarded, so the copy is built
with the default epsilon symbol. -/
def NFA.copy (s : NFA Q String) : NFA Q String :=
  NFA.make s.states s.alphabetL s.delta (Sum.inr s.startVal) s.accepts defaultEpsilon

/-- The external `DFA` collaborator, captured as the record of its constructor
arguments; `table` stands for the dict of dicts that backs the transition
lambda. -/
structure DFA (Q S : Type) : Type where
  states : List (Finset Q)
  alphabetL : List S
  table : List (Finset Q × List (S × Finset Q))
  start : Finset Q
  accepts : List (Finset Q)

/-- The inner symbol loop of `build_DFA_from_NFA`: for each alphabet symbol,
set the cursor to the popped subset `e`, step, record the resulting subset in
the row, and enqueue it when it is in neither the queue nor the discovered
list. -/
def buildInner (e : Finset Q) (dfaStates : List (Finset Q)) :
    List S → NFA Q S → List (Finset Q) →
      List (S × Finset Q) × List (Finset Q) × NFA Q S
  | [], s, queue => ([], queue, s)
  | a :: rest, s, queue =>
    let s1 := NFA.step { s with curVal := e, curIsStart := false } a
    let entry := s1.curVal
    let queue1 := if entry ∈ queue ∨ entry ∈ dfaStates then queue else queue ++ [entry]
    let r := buildInner e dfaStates rest s1 queue1
    ((a, entry) :: r.1, r.2)

/-- The outer worklist loop of `build_DFA_from_NFA`.  The source loop
terminates because each subset enters the queue at most twice; we make the
bound explicit with fuel and return `none` only when the fuel runs out, so a
`some` result certifies that the source loop finished. -/
def buildLoop : Nat → List (Finset Q) → List (Finset Q) →
    List (Finset Q × List (S × Finset Q)) → NFA Q S →
      Option (List (Finset Q) × List (Finset Q × List (S × Finset Q)) × NFA Q S)
  | 0, _, _, _, _ => Option.none
  | _ + 1, [], dfaStates, table, s => Option.some (dfaStates, table, s)
  | fuel + 1, e :: rest, dfaStates, table, s =>
    let r := buildInner e dfaStates s.alphabetL s rest
    buildLoop fuel r.2.1 (dfaStates ++ [e]) (table ++ [(e, r.1)]) r.2.2

/-- `build_DFA_from_NFA`: the source assigns
`saved_state = self.current_state` on entry but never reads it again — in
particular the cursor is not restored before returning.  `dfa_states[0]` is
modelled with `headD ∅`; the discovered list is never empty because the queue
starts non-empty.  Re-processing of a subset overwrites its dict row with an
identical row; the association list keeps both copies. -/
def NFA.build_DFA_from_NFA (s : NFA Q S) (fuel : Nat) : Option (DFA Q S × NFA Q S) :=
  let s0 := s.reset
  match buildLoop fuel [s0.curVal] [] [] s0 with
  | Option.none => Option.none
  | Option.some (sts, table, s1) =>
    Option.some
      ({ states := sts
         alphabetL := s1.alphabetL
         table := table
         start := sts.headD ∅
         accepts := sts.filter fun x => decide (0 < (s1.accepts ∩ x).card) }, s1)

/-- Modelled from the spec: `Closure` "repeatedly unions into S every state
reachable from any member of S via a single EPSILON transition, until a fixed
point is reached".  `closureIter` performs `n` rounds; missing from the code,
which performs a single round (`close1`). -/
def closureIter (d : Q → S → DeltaRes Q) (eps : S) : Nat → Finset Q → Finset Q
  | 0, A => A
  | n + 1, A => closureIter d eps n (close1 d eps A)

/-- Modelled from the spec: the fixed-point epsilon closure.  Over a finite
state type, `Fintype.card Q` rounds always reach the fixed point. -/
def closureSpec [Fintype Q] (d : Q → S → DeltaRes Q) (eps : S) (A : Finset Q) : Finset Q :=
  closureIter d eps (Fintype.card Q) A

/-- The shape `current_state` actually has after the engine's mutators: one
round of epsilon expansion applied to some pre-closure set. -/
def roundShape (s : NFA Q S) : Prop :=
  ∃ A : Finset Q, s.curVal = close1 s.delta s.EPSILON A

/-- The concrete scenario of the spec: alphabet `{a, b}`, states `{q0, q1, q2}`
(as 0, 1, 2), start `q0`, accepts `{q2}`, `delta(q0, a) = {q0, q1}`,
`delta(q1, EPSILON) = {q2}`, all other transitions empty. -/
def c2delta : ℕ → String → DeltaRes ℕ := fun q c =>
  if q = 0 ∧ c = "a" then DeltaRes.many {0, 1}
  else if q = 1 ∧ c = "epi" then DeltaRes.many {2}
  else DeltaRes.many ∅

def c2nfa : NFA ℕ String :=
  NFA.make {0, 1, 2} ["a", "b"] c2delta (Sum.inl 0) {2} "epi"

/-- A four-state epsilon chain 0 → 1 → 2 → 3, used to separate the engine's
single epsilon round from the fixed-point closure. -/
def chainDelta : Fin 4 → String → DeltaRes (Fin 4) := fun q c =>
  if c = "epi" then
    if q = 0 then DeltaRes.many {1}
    else if q = 1 then DeltaRes.many {2}
    else if q = 2 then DeltaRes.many {3}
    else DeltaRes.none
  else DeltaRes.none

def chainNFA : NFA (Fin 4) String :=
  NFA.make Finset.univ [] chainDelta (Sum.inl 0) {3} "epi"

/-- Two states with a single epsilon edge 0 → 1: after construction the cursor
is `{0, 1}`, and stepping on the epsilon symbol drops 0. -/
def epsTestDelta : ℕ → String → DeltaRes ℕ := fun q c =>
  if q = 0 ∧ c = "epi" then DeltaRes.many {1} else DeltaRes.none

def epsTest : NFA ℕ String :=
  NFA.make {0, 1} [] epsTestDelta (Sum.inl 0) {1} "epi"

/-- An epsilon chain 0 → 1 → 2 whose epsilon symbol is the non-default "E". -/
def chainEdelta : ℕ → String → DeltaRes ℕ := fun q c =>
  if c = "E" then
    if q = 0 then DeltaRes.many {1}
    else if q = 1 then DeltaRes.many {2}
    else DeltaRes.none
  else DeltaRes.none

def chainE : NFA ℕ String :=
  NFA.make {0, 1, 2} [] chainEdelta (Sum.inl 0) {2} "E"

/-- An automaton whose state set deliberately contains a frozenset value:
state 9 denotes `frozenset({0})` (recorded by `okAsSet`), so the membership
tests of `validate` can succeed and its loop is reachable. -/
def okDelta : ℕ → String → DeltaRes ℕ := fun _ _ => DeltaRes.many ∅

def okNFA : NFA ℕ String :=
  NFA.make {0, 1, 9} [] okDelta (Sum.inl 0) {0} "epi"

def okAsSet : ℕ → Option (Finset ℕ) := fun q => if q = 9 then some {0} else none

/-! ## General lemmas about the engine -/

theorem subset_close1 (d : Q → S → DeltaRes Q) (eps : S) (A : Finset Q) :
    A ⊆ close1 d eps A :=
  Finset.subset_union_left

theorem pySetMem_none (x states : Finset Q) :
    pySetMem (fun _ => Option.none) x states = false := by
  simp [pySetMem]

theorem roundShape_step (s : NFA Q S) (c : S) (h : roundShape s) :
    roundShape (s.step c) := by
  unfold NFA.step
  split
  · exact ⟨move s.delta s.curVal c, rfl⟩
  · exact h

theorem roundShape_reset (s : NFA Q S) : roundShape s.reset :=
  ⟨s.startVal, rfl⟩

theorem roundShape_input_sequence (s : NFA Q S) (w : List S) (h : roundShape s) :
    roundShape (s.input_sequence w) := by
  induction w generalizing s with
  | nil => exact h
  | cons a t ih => exact ih (s.step a) (roundShape_step s a h)

theorem closureIter_of_fixed (d : Q → S → DeltaRes Q) (eps : S) (A : Finset Q)
    (h : close1 d eps A = A) : ∀ n, closureIter d eps n A = A := by
  intro n
  induction n with
  | zero => rfl
  | succ n ih => rw [closureIter, h]; exact ih

theorem closureIter_fixed_or_card (d : Q → S → DeltaRes Q) (eps : S) :
    ∀ (n : ℕ) (A : Finset Q),
      close1 d eps (closureIter d eps n A) = closureIter d eps n A ∨
        A.card + n ≤ (closureIter d eps n A).card := by
  intro n
  induction n with
  | zero => intro A; right; simp [closureIter]
  | succ n ih =>
    intro A
    by_cases hfix : close1 d eps A = A
    · left
      have h1 : closureIter d eps (n + 1) A = A := by
        rw [closureIter, hfix]; exact closureIter_of_fixed d eps A hfix n
      rw [h1]; exact hfix
    · rcases ih (close1 d eps A) with hfix2 | hcard
      · left; rw [closureIter]; exact hfix2
      · right
        rw [closureIter]
        have hss : A ⊂ close1 d eps A :=
          Finset.ssubset_iff_subset_ne.mpr ⟨subset_close1 d eps A, fun he => hfix he.symm⟩
        have hlt : A.card < (close1 d eps A).card := Finset.card_lt_card hss
        omega

theorem close1_closureSpec [Fintype Q] (d : Q → S → DeltaRes Q) (eps : S) (A : Finset Q) :
    close1 d eps (closureSpec d eps A) = closureSpec d eps A := by
  rcases closureIter_fixed_or_card d eps (Fintype.card Q) A with h | h
  · exact h
  · have h2 : (closureIter d eps (Fintype.card Q) A).card ≤ Fintype.card Q :=
      Finset.card_le_univ _
    have h3 : (closureIter d eps (Fintype.card Q) A).card = Fintype.card Q := by omega
    have h4 : closureIter d eps (Fintype.card Q) A = Finset.univ :=
      (Finset.card_eq_iff_eq_univ _).mp h3
    show close1 d eps (closureIter d eps (Fintype.card Q) A) =
      closureIter d eps (Fintype.card Q) A
    rw [h4]
    show Finset.univ ∪ move d Finset.univ eps = Finset.univ
    exact Finset.union_eq_left.mpr (Finset.subset_univ _)

/-! ## Claim theorems -/

/-- C1 (counterexample): on the epsilon chain 0 → 1 → 2 → 3, after `reset` the
cursor is `{0, 1, 2}` (the code performs a single epsilon round on the already
once-expanded start object), while its full epsilon closure is `{0, 1, 2, 3}`;
so after a `Reset` the cursor is not equal to its full epsilon closure. -/
theorem reset_not_fully_saturated :
    (chainNFA.reset).curVal = {0, 1, 2} ∧
      closureSpec (chainNFA.reset).delta (chainNFA.reset).EPSILON (chainNFA.reset).curVal =
        {0, 1, 2, 3} ∧
      ¬ (chainNFA.reset).curVal =
          closureSpec (chainNFA.reset).delta (chainNFA.reset).EPSILON
            (chainNFA.reset).curVal := by
  refine ⟨by decide, by decide, by decide⟩

/-- C1 (amended): after `Reset` followed by any sequence of `Step` calls, the
cursor equals a single round of epsilon expansion `A ∪ epsStep(A)` of some
pre-closure set `A` — the engine applies one epsilon round per mutation, not
the fixed-point closure, so the cursor need not be epsilon-saturated. -/
theorem curVal_is_one_round_closure (s : NFA Q S) (w : List S) :
    roundShape ((s.reset).input_sequence w) :=
  roundShape_input_sequence s.reset w (roundShape_reset s)

/-- C2 (counterexample): on the spec's concrete scenario, `BuildDFA` does not
yield exactly 2 reachable DFA states: the discovered-subset list has 4 distinct
members, not 2 (the subset construction also iterates the EPSILON column and
records the empty subset). -/
theorem buildDFA_c2_not_two_states :
    (c2nfa.build_DFA_from_NFA 20).map (fun p => p.1.states.toFinset.card) ≠ some 2 := by
  decide

/-- C2 (amended): on the spec's concrete scenario, `BuildDFA` terminates and
discovers 4 distinct subsets — the closure of `{q0}` (= `{0}`), the closure of
`{q0, q1}` (= `{0, 1, 2}`), the empty subset (reached on `b`), and `{q2}`
(reached from `{0, 1, 2}` on the EPSILON column) — of which `{0, 1, 2}` and
`{2}` are accepting; the raw state list repeats self-looping subsets and has
length 6, and the DFA start state is `{0}`. -/
theorem buildDFA_c2_characterization :
    (c2nfa.build_DFA_from_NFA 20).map
        (fun p => (p.1.states.dedup, p.1.states.length, p.1.start, p.1.accepts.dedup)) =
      some ([({0} : Finset ℕ), {0, 1, 2}, {2}, ∅], 6, {0}, [{0, 1, 2}, {2}]) := by
  decide

/-- C3 (code bug): `recognizes` is not side-effect-free on the cursor.  On the
epsilon chain 0 → 1 → 2 → 3, immediately after construction `current_state`
aliases the `start` object; `recognizes([])` saves that reference, and the
internal `reset` mutates the shared object in place from `{0, 1}` to
`{0, 1, 2}`, so the restored cursor differs from the one observed before. -/
theorem recognizes_mutates_aliased_cursor :
    chainNFA.curVal = {0, 1} ∧
      (chainNFA.recognizes []).2.curVal = {0, 1, 2} ∧
      (chainNFA.recognizes []).2.curVal ≠ chainNFA.curVal := by
  refine ⟨by decide, by decide, by decide⟩

/-- C4 (code bug): `build_DFA_from_NFA` assigns
`saved_state = self.current_state` and never restores it.  On the spec's
concrete scenario the cursor is `{0}` before the call and is left as the
determinization scratch value `∅` (the result of the last `step` of the
worklist loop) after it. -/
theorem buildDFA_not_restored :
    c2nfa.curVal = {0} ∧
      (c2nfa.build_DFA_from_NFA 20).map (fun p => p.2.curVal) = some ∅ ∧
      (c2nfa.build_DFA_from_NFA 20).map (fun p => p.2.curVal) ≠ some c2nfa.curVal := by
  refine ⟨by decide, by decide, by decide⟩

/-- C5 (counterexample): the engine's epsilon-closure (`_perform_eps_closure`,
a single round `S ∪ epsStep(S)`) is not idempotent.  On the epsilon chain
0 → 1 → 2 → 3 take `S = {0, 1}`, the cursor reached right after construction:
one application gives `{0, 1, 2}`, a second gives `{0, 1, 2, 3}`. -/
theorem close1_not_idempotent_reachable :
    chainNFA.curVal = {0, 1} ∧
      close1 chainNFA.delta chainNFA.EPSILON
          (close1 chainNFA.delta chainNFA.EPSILON chainNFA.curVal) ≠
        close1 chainNFA.delta chainNFA.EPSILON chainNFA.curVal := by
  refine ⟨by decide, by decide⟩

/-- C5 (amended): the engine performs a single epsilon round, which is not
idempotent; the fixed-point epsilon closure the spec describes (iterating the
round until saturation, here `Fintype.card Q` rounds) is idempotent:
`Closure(Closure(S)) = Closure(S)` for every set `S`. -/
theorem closureSpec_idempotent [Fintype Q] (d : Q → S → DeltaRes Q) (eps : S) (A : Finset Q) :
    closureSpec d eps (closureSpec d eps A) = closureSpec d eps A :=
  closureIter_of_fixed d eps (closureSpec d eps A) (close1_closureSpec d eps A)
    (Fintype.card Q)

/-- C6: a symbol outside the alphabet is a no-op: `step` returns before
touching any field (the whole object is unchanged), and `input` returns
`None`; no error is raised. -/
theorem step_unknown_symbol_noop (s : NFA Q S) (c : S) (h : c ∉ s.alphabetL) :
    s.step c = s ∧ s.input c = none := by
  constructor
  · unfold NFA.step; rw [if_neg h]
  · unfold NFA.input; rw [if_neg h]

/-- C6 (witness): on the spec's concrete NFA the symbol "z" is outside the
alphabet, and step/input behave as the theorem states. -/
theorem step_unknown_symbol_noop_w :
    ("z" ∉ c2nfa.alphabetL) ∧ (c2nfa.step "z" = c2nfa ∧ c2nfa.input "z" = none) :=
  ⟨by decide, step_unknown_symbol_noop c2nfa "z" (by decide)⟩

/-- `validate` is not collapsed: its success path and its loop are reachable,
on an automaton whose state set contains the frozenset value that the start
and cursor sets convert to. -/
theorem validate_can_succeed : okNFA.validate okAsSet = Except.ok () := by rfl

/-- C7 (code bug): `assert self.start in self.states` tests membership of the
start *set* itself (CPython converts the unhashable `set` to a `frozenset` for
the test) rather than of its elements, so over atom-typed states — every state
value the class is normally used with, where no state equals a frozenset of
states — the assertion fails and `validate` raises a bare `AssertionError` on
every input.  In particular the spec's concrete NFA, shown structurally
well-formed in the claim's sense (accepts a subset of states, every element of
start and of the cursor a state, every `delta` result a member or subset of
states), fails with a plain `AssertionError` instead of succeeding, and no
offending state/symbol pair is ever reported. -/
theorem validate_asserts_on_wellformed :
    (∀ (Q' S' : Type) [DecidableEq Q'] (s : NFA Q' S'),
        s.validate (fun _ => Option.none) ≠ Except.ok ()) ∧
      c2nfa.accepts ⊆ c2nfa.states ∧
      (∀ q ∈ c2nfa.startVal, q ∈ c2nfa.states) ∧
      (∀ q ∈ c2nfa.curVal, q ∈ c2nfa.states) ∧
      (∀ q ∈ c2nfa.states, ∀ c ∈ c2nfa.alphabetL, deltaResOk c2nfa q c = true) ∧
      c2nfa.validate (fun _ => Option.none) = Except.error PyErr.assertionErr := by
  refine ⟨?_, by decide, by decide, by decide, by decide, by rfl⟩
  intro Q' S' _ s
  unfold NFA.validate
  split
  · rw [pySetMem_none]
    simp
  · exact fun h => Except.noConfusion h

/-- C8 (code bug): `copy` does not forward the epsilon symbol.  For the NFA
`chainE` constructed with epsilon "E", the copy is built with the default
epsilon "epi": its `EPSILON` differs from the original's, its alphabet gains
"epi", and its re-derived cursor is `{0, 1}`, whereas re-running the
constructor with the original's epsilon (a faithful copy) yields `{0, 1, 2}`. -/
theorem copy_wrong_epsilon :
    (chainE.copy).EPSILON = "epi" ∧
      chainE.EPSILON = "E" ∧
      (chainE.copy).alphabetL ≠ chainE.alphabetL ∧
      (chainE.copy).curVal = {0, 1} ∧
      (NFA.make chainE.states chainE.alphabetL chainE.delta (Sum.inr chainE.startVal)
            chainE.accepts chainE.EPSILON).curVal = {0, 1, 2} := by
  refine ⟨by decide, by decide, by decide, by decide, by decide⟩

/-- C9: the empty cursor is absorbing: when `current_state = ∅`, stepping on
any symbol leaves it empty (a symbol outside the alphabet is a no-op, and for
one inside the alphabet both the transition image and the epsilon round of `∅`
are `∅`), and `status` is `False`.  The hypothesis that the epsilon symbol is
in the alphabet holds for every constructed NFA (`__init__` adds it). -/
theorem empty_cursor_absorbing (s : NFA Q S) (c : S)
    (_heps : s.EPSILON ∈ s.alphabetL) (h : s.curVal = ∅) :
    (s.step c).curVal = ∅ ∧ s.status = false := by
  constructor
  · unfold NFA.step
    split
    · simp [NFA.perform_eps_closure, close1, move, h]
    · exact h
  · simp [NFA.status, h]

/-- C9 (witness): after stepping the spec's concrete NFA on "b" the cursor is
empty, the epsilon symbol is in the alphabet, and stepping on "a" keeps the
cursor empty while `status` is `False`. -/
theorem empty_cursor_absorbing_w :
    ((c2nfa.step "b").EPSILON ∈ (c2nfa.step "b").alphabetL ∧ (c2nfa.step "b").curVal = ∅) ∧
      (((c2nfa.step "b").step "a").curVal = ∅ ∧ (c2nfa.step "b").status = false) :=
  ⟨⟨by decide, by decide⟩,
    empty_cursor_absorbing (c2nfa.step "b") "a" (by decide) (by decide)⟩

/-- C10: `step` accepts the epsilon symbol as ordinary input: the constructor
always puts the epsilon symbol in the alphabet, and stepping on it replaces the
cursor with the epsilon image of its members followed by the engine's closure
round.  In particular, on `epsTest` (single epsilon edge 0 → 1) after one
`Step(EPSILON)` the cursor is `{1}`; state 1 has no outgoing epsilon
transition (`delta(1, EPSILON)` is `None`), yet a further `Step(EPSILON)`
removes it (the new cursor is `∅`) — so `Step(EPSILON)` is neither a no-op nor
guaranteed to contain the previous cursor. -/
theorem step_epsilon_replaces :
    (∀ (Q' S' : Type) [DecidableEq Q'] [DecidableEq S'] (states : Finset Q')
        (alph : List S') (d : Q' → S' → DeltaRes Q') (st : Q' ⊕ Finset Q')
        (acc : Finset Q') (eps : S'),
        eps ∈ (NFA.make states alph d st acc eps).alphabetL) ∧
      (∀ (Q' S' : Type) [DecidableEq Q'] [DecidableEq S'] (s : NFA Q' S'),
        s.EPSILON ∈ s.alphabetL →
          (s.step s.EPSILON).curVal =
            close1 s.delta s.EPSILON (move s.delta s.curVal s.EPSILON)) ∧
      deltaSet (epsTest.step "epi").delta 1 (epsTest.step "epi").EPSILON = ∅ ∧
      1 ∈ (epsTest.step "epi").curVal ∧
      1 ∉ ((epsTest.step "epi").step "epi").curVal := by
  refine ⟨?_, ?_, by decide, by decide, by decide⟩
  · intro Q' S' _ _ states alph d st acc eps
    show eps ∈ alph.dedup ++ if eps ∈ alph then [] else [eps]
    by_cases hmem : eps ∈ alph
    · rw [if_pos hmem, List.append_nil]
      exact List.mem_dedup.mpr hmem
    · rw [if_neg hmem]
      exact List.mem_append_right _ (List.mem_singleton_self eps)
  · intro Q' S' _ _ s h
    unfold NFA.step
    rw [if_pos h]
    rfl

/-- C10 (witness): applied to the concrete NFA `epsTest`, whose epsilon symbol
"epi" is in its alphabet. -/
theorem step_epsilon_replaces_w :
    epsTest.EPSILON ∈ epsTest.alphabetL ∧
      (epsTest.step epsTest.EPSILON).curVal =
        close1 epsTest.delta epsTest.EPSILON
          (move epsTest.delta epsTest.curVal epsTest.EPSILON) :=
  ⟨by decide, step_epsilon_replaces.2.1 ℕ String epsTest (by decide)⟩

end PyAutomata
